import Mathlib

/-!
Verification development for the GTFS stop-times precache tool
(`gtfs_precache.c`).  The transcoding pipeline is shallowly embedded:
C strings become `List Char` (the end of the list plays the role of the
NUL terminator), the msgpack packer becomes a list of abstract packed
items, and the per-row loop of `process_stop_times` becomes explicit
recursion producing an event trace.  Every definition mirrors the
corresponding C function; source line numbers are given in the doc
comments.
-/

/-- Characters of a Lean string literal, used to write concrete inputs. -/
def toL (s : String) : List Char := s.data

/-- Abstract msgpack items emitted by the packer: map and array headers
with their declared entry counts, length-prefixed strings (the length
prefix is the list length, as the C code packs `strlen(field)`), and
32-bit signed integers (`msgpack_pack_int32`). -/
inductive MP where
  | mapHeader (n : Nat)
  | arrayHeader (n : Nat)
  | str (s : List Char)
  | int32 (v : Int)
  deriving DecidableEq, Repr

/-- Leading-whitespace skip at the start of each field in
`parse_csv_line` (line 65): `while (*start == ' ' || *start == '\t') start++`. -/
def skipWs : List Char → List Char
  | [] => []
  | c :: rest => if c = ' ' ∨ c = '\t' then skipWs rest else c :: rest

/-- The closing-quote scan of `parse_csv_line` (lines 73-84), applied to
the text after the opening quote.  A doubled quote is stepped over and
KEPT in the field (the C code only advances `end += 2`; it does not
collapse the pair).  Returns the field content and `some rest` when a
closing quote was found (`rest` is the text after it), `none` when the
buffer ended first. -/
def scanQuoted : List Char → List Char × Option (List Char)
  | [] => ([], none)
  | c :: rest =>
    if c = '"' then
      match rest with
      | c2 :: rest2 =>
        if c2 = '"' then
          let p := scanQuoted rest2
          ('"' :: '"' :: p.1, p.2)
        else ([], some rest)
      | [] => ([], some [])
    else
      let p := scanQuoted rest
      (c :: p.1, p.2)

/-- After a closed quoted field, `parse_csv_line` (lines 96-98) skips to
the next comma, discarding anything in between, and then skips the comma. -/
def skipToComma : List Char → List Char
  | [] => []
  | c :: rest => if c = ',' then rest else skipToComma rest

/-- Unquoted-field scan of `parse_csv_line` (lines 100-113): the field
runs to the next `,`, `\n`, `\r` or end of buffer; the terminator, when
present, is consumed. -/
def scanUnquoted : List Char → List Char × List Char
  | [] => ([], [])
  | c :: rest =>
    if c = ',' ∨ c = '\n' ∨ c = '\r' then ([], rest)
    else
      let p := scanUnquoted rest
      (c :: p.1, p.2)

/-- One iteration of the field loop of `parse_csv_line`, applied after
the whitespace skip: quoted branch (lines 68-98) or unquoted branch
(lines 100-113).  When a quoted field has no closing quote the rest of
the buffer has been consumed into the field and scanning ends. -/
def parseOneField (s : List Char) : List Char × List Char :=
  match s with
  | [] => ([], [])
  | c :: rest =>
    if c = '"' then
      match scanQuoted rest with
      | (content, some r) => (content, skipToComma r)
      | (content, none) => (content, [])
    else scanUnquoted (c :: rest)

/-- The field loop of `parse_csv_line` (lines 63-115):
`while (*start && field < max_fields)`.  The fuel argument is the
remaining field capacity (`max_fields - field`). -/
def parseFields : List Char → Nat → List (List Char)
  | _, 0 => []
  | [], _ + 1 => []
  | c :: l, n + 1 =>
    (parseOneField (skipWs (c :: l))).1 ::
      parseFields (parseOneField (skipWs (c :: l))).2 n

/-- `parse_csv_line(line, fields, 10)` as called from `process_line`
(line 123): the list of extracted fields, at most 10. -/
def parse_csv_line (line : List Char) : List (List Char) :=
  parseFields line 10

/-- C `isspace` characters skipped by `strtol` before the number. -/
def isSpaceC (c : Char) : Bool :=
  c == ' ' || c == '\t' || c == '\n' || c == Char.ofNat 11 || c == Char.ofNat 12 || c == '\r'

/-- Drop the `isspace` characters `strtol` skips. -/
def dropSpacesC : List Char → List Char
  | [] => []
  | c :: rest => if isSpaceC c then dropSpacesC rest else c :: rest

/-- Consume a run of decimal digits, accumulating their value; returns
the value and the unconsumed rest. -/
def digits10 : List Char → Nat → Nat × List Char
  | [], acc => (acc, [])
  | c :: rest, acc =>
    if c.isDigit then digits10 rest (acc * 10 + (c.toNat - 48))
    else (acc, c :: rest)

/-- `strtol(s, &endptr, 10)` (lines 133, 427): skip whitespace, optional
sign, then digits.  Returns the value and the text from `endptr` on.
When no digits are present, no conversion is performed and `endptr` is
the original pointer (the whole input is returned as rest).  The
mathematical value is returned without `long` clamping: clamping only
changes values outside `[LONG_MIN, LONG_MAX]`, and every such value is
rejected by the `seq < 0 || seq > INT_MAX` guard exactly as its clamped
counterpart would be. -/
def strtol10 (s : List Char) : Int × List Char :=
  match dropSpacesC s with
  | [] => (0, s)
  | c :: rest =>
    if c = '+' then
      match rest with
      | c2 :: _ =>
        if c2.isDigit then
          let p := digits10 rest 0
          ((p.1 : Int), p.2)
        else (0, s)
      | [] => (0, s)
    else if c = '-' then
      match rest with
      | c2 :: _ =>
        if c2.isDigit then
          let p := digits10 rest 0
          (-(p.1 : Int), p.2)
        else (0, s)
      | [] => (0, s)
    else if c.isDigit then
      let p := digits10 (c :: rest) 0
      ((p.1 : Int), p.2)
    else (0, s)

/-- `INT_MAX` on the target platform (32-bit `int`). -/
def INT_MAX : Int := 2147483647

/-- The msgpack items emitted for one accepted row by `process_line`
(lines 140-194): a 5-entry map whose keys are packed in the order
`trip_id`, `arrival_time`, `departure_time`, `stop_id`,
`stop_sequence`; the first four values are length-prefixed strings and
the last is a 32-bit signed integer. -/
def recordItems (f0 f1 f2 f3 : List Char) (seq : Int) : List MP :=
  [MP.mapHeader 5,
   MP.str (toL "trip_id"), MP.str f0,
   MP.str (toL "arrival_time"), MP.str f1,
   MP.str (toL "departure_time"), MP.str f2,
   MP.str (toL "stop_id"), MP.str f3,
   MP.str (toL "stop_sequence"), MP.int32 seq]

/-- `process_line` (lines 121-197): parse the line into fields, reject
when fewer than 5 fields were found (line 125) or when field 4 fails the
`strtol` validation (lines 131-138), otherwise emit the record items.
Field positions are fixed: field 0 is packed as `trip_id`, 1 as
`arrival_time`, 2 as `departure_time`, 3 as `stop_id`, 4 as
`stop_sequence`; the header's column mapping is never consulted.
`none` models the `-1` error return (nothing packed), `some items` the
`0` success return. -/
def process_line (line : List Char) : Option (List MP) :=
  if (parse_csv_line line).length < 5 then none
  else if (strtol10 ((parse_csv_line line).getD 4 [])).2 ≠ [] ∨
      (strtol10 ((parse_csv_line line).getD 4 [])).1 < 0 ∨
      (strtol10 ((parse_csv_line line).getD 4 [])).1 > INT_MAX then none
  else
    some (recordItems ((parse_csv_line line).getD 0 []) ((parse_csv_line line).getD 1 [])
      ((parse_csv_line line).getD 2 []) ((parse_csv_line line).getD 3 [])
      (strtol10 ((parse_csv_line line).getD 4 [])).1)

/-- One `fgets(line, 1024, fp)` call: read up to `n` characters (the C
call passes a 1024-byte buffer, hence at most 1023 characters), stopping
after a newline; returns the chunk and the unread rest of the stream. -/
def fgetsChunk : List Char → Nat → List Char × List Char
  | s, 0 => ([], s)
  | [], _ + 1 => ([], [])
  | c :: rest, n + 1 =>
    if c = '\n' then ([c], rest)
    else
      let p := fgetsChunk rest n
      (c :: p.1, p.2)

/-- Repeated `fgets` with a 1024-byte buffer until end of file: the
sequence of chunks the C loops at lines 615-617 and 689-714 see.  The
fuel is an upper bound on the number of chunks; each chunk consumes at
least one character, so the input length suffices. -/
def fgetsSplitFuel : Nat → List Char → List (List Char)
  | 0, _ => []
  | _ + 1, [] => []
  | fuel + 1, c :: rest =>
    (fgetsChunk (c :: rest) 1023).1 ::
      fgetsSplitFuel fuel (fgetsChunk (c :: rest) 1023).2

/-- The chunks `fgets` yields over the whole input file. -/
def fgetsSplit (s : List Char) : List (List Char) :=
  fgetsSplitFuel s.length s

/-- Events of the streaming loop (lines 689-714).  `observe` stands for
a call to the CPU governor `limit_cpu`; `parseRow` for handing a chunk
to `process_line`; `encodeRecord` for a successful encode. -/
inductive Ev where
  | observe
  | parseRow (chunk : List Char)
  | encodeRecord
  deriving DecidableEq, Repr

/-- The streaming loop of `process_stop_times` (lines 689-714): for each
chunk, call `process_line`; on success count it and keep its packed
items, on failure continue.  Returns the event trace, the packed body,
and the `successful` counter.  The loop body contains no call to
`limit_cpu`, so no `Ev.observe` is ever emitted. -/
def streamLoop : List (List Char) → List Ev × List MP × Nat
  | [] => ([], [], 0)
  | r :: rs =>
    let t := streamLoop rs
    match process_line r with
    | some items => (Ev.parseRow r :: Ev.encodeRecord :: t.1, items ++ t.2.1, t.2.2 + 1)
    | none => (Ev.parseRow r :: t.1, t.2.1, t.2.2)

/-- Count of governor observations in a trace. -/
def countObserve : List Ev → Nat
  | [] => 0
  | Ev.observe :: rest => countObserve rest + 1
  | Ev.parseRow _ :: rest => countObserve rest
  | Ev.encodeRecord :: rest => countObserve rest

/-- Result of a `process_stop_times` run: the value returned to `main`
(the process exit code), the bytes written to the output file (empty
when the run failed before writing), and the final `processed` and
`successful` counters. -/
structure RunResult where
  exitCode : Nat
  output : List MP
  processed : Nat
  successful : Nat
  deriving DecidableEq, Repr

/-- The envelope packed at lines 656-681: a 1-entry map, the key
`stop_times`, and an array header whose declared length is the pass-1
line count minus one (the header line). -/
def envelope (n : Nat) : List MP :=
  [MP.mapHeader 1, MP.str (toL "stop_times"), MP.arrayHeader n]

/-- `process_stop_times` (lines 602-756).  Pass 1 (lines 613-618) counts
`fgets` chunks and subtracts one for the header.  The file is rewound,
one chunk is read and DISCARDED as the header — its content is never
inspected, in particular `get_column_indices` is never called — and the
envelope is packed with the pass-1 count as the declared array length
(line 675).  The streaming loop then appends the items of the accepted
rows.  The only failure modelled is the header `fgets` failing (empty
input, line 626), which returns 1 before anything is written; file
open/write failures are environmental and out of scope. -/
def process_stop_times (input : List Char) : RunResult :=
  if fgetsSplit input = [] then ⟨1, [], 0, 0⟩
  else
    ⟨0, envelope ((fgetsSplit input).length - 1) ++
        (streamLoop ((fgetsSplit input).drop 1)).2.1,
      (fgetsSplit input).length - 1,
      (streamLoop ((fgetsSplit input).drop 1)).2.2⟩

/-! ## Helper lemmas -/

/-- An input starting with any character yields at least one `fgets` chunk. -/
theorem fgetsSplit_ne_nil (c : Char) (rest : List Char) : fgetsSplit (c :: rest) ≠ [] := by
  show fgetsSplitFuel (rest.length + 1) (c :: rest) ≠ []
  rw [fgetsSplitFuel]
  exact List.cons_ne_nil _ _

/-- When the closing quote never appears, the scan consumes the whole rest
of the buffer as the field. -/
theorem scanQuoted_no_quote (t : List Char) (h : '"' ∉ t) : scanQuoted t = (t, none) := by
  induction t with
  | nil => rfl
  | cons c rest ih =>
    have hc : c ≠ '"' := fun e => h (e ▸ List.mem_cons_self c rest)
    have hr : '"' ∉ rest := fun m => h (List.mem_cons_of_mem c m)
    rw [scanQuoted.eq_def]
    simp only []
    rw [if_neg hc, ih hr]

/-- Unquoted scan over a run of `a` characters up to a comma. -/
theorem scanUnquoted_replicate (n : Nat) (rest : List Char) :
    scanUnquoted (List.replicate n 'a' ++ ',' :: rest) = (List.replicate n 'a', rest) := by
  induction n with
  | zero => simp [scanUnquoted]
  | succ m ih =>
    simp only [List.replicate_succ, List.cons_append, scanUnquoted]
    rw [if_neg (by decide)]
    simp [ih]

/-- The rest left by `fgetsChunk` is never longer than the input. -/
theorem fgetsChunk_snd_le (s : List Char) : ∀ n, (fgetsChunk s n).2.length ≤ s.length := by
  induction s with
  | nil => intro n; cases n <;> simp [fgetsChunk]
  | cons c rest ih =>
    intro n
    cases n with
    | zero => simp [fgetsChunk]
    | succ m =>
      simp only [fgetsChunk]
      by_cases hc : c = '\n'
      · rw [if_pos hc]; simp
      · rw [if_neg hc]
        exact le_trans (ih m) (by simp)

/-- With room for at least one character, `fgetsChunk` strictly shrinks a
nonempty input. -/
theorem fgetsChunk_snd_lt (c : Char) (rest : List Char) (n : Nat) :
    (fgetsChunk (c :: rest) (n + 1)).2.length < (c :: rest).length := by
  simp only [fgetsChunk]
  by_cases hc : c = '\n'
  · rw [if_pos hc]; simp
  · rw [if_neg hc]
    exact lt_of_le_of_lt (fgetsChunk_snd_le rest n) (by simp)

/-- Fuel irrelevance for the `fgets` loop: any fuel at least the input
length gives the same chunk list. -/
theorem fgetsSplitFuel_congr :
    ∀ m1 m2 (s : List Char), s.length ≤ m1 → s.length ≤ m2 →
      fgetsSplitFuel m1 s = fgetsSplitFuel m2 s := by
  intro m1
  induction m1 with
  | zero =>
    intro m2 s h1 _
    have : s = [] := List.eq_nil_of_length_eq_zero (Nat.le_zero.mp h1)
    subst this
    cases m2 <;> rfl
  | succ m ih =>
    intro m2 s h1 h2
    cases s with
    | nil => cases m2 <;> rfl
    | cons c rest =>
      cases m2 with
      | zero => simp at h2
      | succ m2' =>
        simp only [fgetsSplitFuel]
        have hlt := fgetsChunk_snd_lt c rest 1022
        refine congrArg _ (ih m2' _ ?_ ?_)
        · exact Nat.le_of_lt_succ (lt_of_lt_of_le hlt (by simpa using h1))
        · exact Nat.le_of_lt_succ (lt_of_lt_of_le hlt (by simpa using h2))

/-- `fgetsChunk` on newline-free text longer than the buffer takes exactly
the buffer-many characters. -/
theorem fgetsChunk_no_newline :
    ∀ (n : Nat) (pre post : List Char), '\n' ∉ pre → n ≤ pre.length →
      fgetsChunk (pre ++ post) n = (pre.take n, pre.drop n ++ post) := by
  intro n
  induction n with
  | zero => intro pre post _ _; simp [fgetsChunk]
  | succ m ih =>
    intro pre post hmem hlen
    cases pre with
    | nil => simp at hlen
    | cons c pre' =>
      have hc : c ≠ '\n' := fun e => hmem (e ▸ List.mem_cons_self c pre')
      have hm' : '\n' ∉ pre' := fun m => hmem (List.mem_cons_of_mem c m)
      have hrec := ih pre' post hm' (by simpa using hlen)
      simp only [List.cons_append, fgetsChunk, List.append_eq] at hrec ⊢
      rw [if_neg hc, hrec]
      simp

/-! ## Claims -/

/-- C1: the code violates the claim that the declared array length always
equals the number of encoded records.  On a file whose single data row has
the non-numeric `stop_sequence` value `abc`, the run succeeds with exit
code 0, the envelope declares an array of length 1 (the raw pass-1 line
count), yet zero records follow it (`successful = 0`): the declared
length exceeds the encoded record count. -/
theorem C1_declared_length_vs_encoded_records :
    process_stop_times
        (toL "trip_id,stop_id,arrival_time,departure_time,stop_sequence\nT1,S1,08:00:00,08:01:00,abc\n") =
      ⟨0, envelope 1, 1, 0⟩ := by decide

/-- C2: the code violates the claim that a header missing required
columns aborts the run before any data row with nothing written.  With
header `foo,bar` — which lacks all five required names — the run skips
the header without inspecting it, parses the data row, exits with code 0
and writes an envelope holding one record. -/
theorem C2_missing_columns_run_succeeds :
    process_stop_times (toL "foo,bar\nT1,A,B,S1,3\n") =
      ⟨0, envelope 1 ++ recordItems (toL "T1") (toL "A") (toL "B") (toL "S1") 3, 1, 1⟩ := by
  decide

/-- C3 counterexample: for the non-canonically ordered header
`stop_id,trip_id,arrival_time,departure_time,stop_sequence` and data row
`S1,T1,08:00:00,08:01:00,3`, the header's column mapping demands a record
with `trip_id = T1`, `stop_id = S1`, `arrival_time = 08:00:00`,
`departure_time = 08:01:00`; the code instead assigns by fixed position
and produces `trip_id = S1`, `arrival_time = T1`,
`departure_time = 08:00:00`, `stop_id = 08:01:00` — a different record,
so the claim fails on this input. -/
theorem C3_header_mapping_ignored :
    process_stop_times
        (toL "stop_id,trip_id,arrival_time,departure_time,stop_sequence\nS1,T1,08:00:00,08:01:00,3\n") =
      ⟨0, envelope 1 ++ recordItems (toL "S1") (toL "T1") (toL "08:00:00") (toL "08:01:00") 3,
        1, 1⟩ ∧
    recordItems (toL "S1") (toL "T1") (toL "08:00:00") (toL "08:01:00") 3 ≠
      recordItems (toL "T1") (toL "08:00:00") (toL "08:01:00") (toL "S1") 3 := by
  constructor
  · decide
  · decide

/-- C3 amended: values are assigned by fixed position (field 0 →
`trip_id`, 1 → `arrival_time`, 2 → `departure_time`, 3 → `stop_id`, 4 →
`stop_sequence`), the header being ignored.  For the spec's scenario —
header `trip_id,arrival_time,departure_time,stop_id,stop_sequence` and
row `T1,08:00:00,08:01:00,S1,3`, whose order happens to coincide with
the fixed positions — the output array holds exactly one record with
`trip_id "T1"`, `stop_id "S1"`, `arrival_time "08:00:00"`,
`departure_time "08:01:00"`, `stop_sequence 3`, as the scenario states. -/
theorem C3_positional_scenario :
    process_stop_times
        (toL "trip_id,arrival_time,departure_time,stop_id,stop_sequence\nT1,08:00:00,08:01:00,S1,3\n") =
      ⟨0, envelope 1 ++ recordItems (toL "T1") (toL "08:00:00") (toL "08:01:00") (toL "S1") 3,
        1, 1⟩ := by
  decide

/-- C9: the code violates the claim that the CPU governor is observed
once per data row during streaming.  The streaming loop of
`process_stop_times` (lines 689-714) contains no call to `limit_cpu` at
all: for every row list, the event trace of the loop holds zero
governor observations, so the configured ceiling cannot influence the
loop's pacing. -/
theorem C9_governor_never_invoked (rows : List (List Char)) :
    countObserve (streamLoop rows).1 = 0 := by
  induction rows with
  | nil => rfl
  | cons r rs ih =>
    cases h : process_line r <;> simp [streamLoop, h, countObserve, ih]

/-- C4 counterexample: the claim puts `stop_id` as the second key of each
record, but the encoder packs `arrival_time` second: in the record for
row `T1,A,B,S1,3`, the item at position 3 (the second key) is the string
`arrival_time`, which differs from `stop_id`. -/
theorem C4_second_key_is_arrival_time :
    List.getD ((process_line (toL "T1,A,B,S1,3")).getD []) 3 (MP.int32 0) =
      MP.str (toL "arrival_time") ∧
    MP.str (toL "arrival_time") ≠ MP.str (toL "stop_id") := by
  constructor
  · decide
  · decide

/-- C4 amended: every encoded record is a 5-entry keyed structure whose
keys appear in the stable order `trip_id`, `arrival_time`,
`departure_time`, `stop_id`, `stop_sequence` (`recordItems`), where the
first four values are length-prefixed strings and the fifth is a 32-bit
signed integer whose value lies in `[0, INT_MAX]` (so the
`(int32_t)seq` cast is exact). -/
theorem C4_record_shape (line : List Char) (r : List MP)
    (h : process_line line = some r) :
    ∃ f0 f1 f2 f3 v, r = recordItems f0 f1 f2 f3 v ∧ 0 ≤ v ∧ v ≤ INT_MAX := by
  unfold process_line at h
  split at h
  · simp at h
  · split at h
    · simp at h
    · rename_i hguard
      push_neg at hguard
      exact ⟨_, _, _, _, _, (Option.some.inj h).symm, hguard.2.1, hguard.2.2⟩

/-- Witness for `C4_record_shape` at the concrete row `T1,A,B,S1,3`. -/
theorem C4_record_shape_witness :
    ∃ f0 f1 f2 f3 v,
      recordItems (toL "T1") (toL "A") (toL "B") (toL "S1") 3 =
        recordItems f0 f1 f2 f3 v ∧ 0 ≤ v ∧ v ≤ INT_MAX :=
  C4_record_shape (toL "T1,A,B,S1,3")
    (recordItems (toL "T1") (toL "A") (toL "B") (toL "S1") 3) (by decide)

/-- C5 counterexample: a row whose `trip_id` field is 64 bytes long (one
over the 63-byte ceiling claimed) is NOT rejected by the streaming
pipeline: `process_line` accepts it and encodes the full 64-byte field. -/
theorem C5_overlong_field_accepted :
    process_line (List.replicate 64 'a' ++ toL ",A,B,S1,3") =
      some (recordItems (List.replicate 64 'a') (toL "A") (toL "B") (toL "S1") 3) := by
  decide

/-- The field scan extracts a run of `a` characters of any length as one
field, leaving the remaining concrete row intact. -/
theorem parse_csv_line_replicate (n : Nat) :
    parse_csv_line (List.replicate n 'a' ++ toL ",A,B,S1,3") =
      [List.replicate n 'a', toL "A", toL "B", toL "S1", toL "3"] := by
  cases n with
  | zero => decide
  | succ m =>
    show parseFields ('a' :: (List.replicate m 'a' ++ toL ",A,B,S1,3")) (9 + 1) = _
    rw [parseFields]
    have hws : skipWs ('a' :: (List.replicate m 'a' ++ toL ",A,B,S1,3")) =
        'a' :: (List.replicate m 'a' ++ toL ",A,B,S1,3") := by
      rw [skipWs]
      exact if_neg (by decide)
    rw [hws]
    have hpof : parseOneField ('a' :: (List.replicate m 'a' ++ toL ",A,B,S1,3")) =
        (List.replicate (m + 1) 'a', toL "A,B,S1,3") := by
      simp only [parseOneField]
      rw [if_neg (by decide)]
      have h1 := scanUnquoted_replicate (m + 1) (toL "A,B,S1,3")
      rw [List.replicate_succ, List.cons_append] at h1
      exact h1
    rw [hpof]
    show List.replicate (m + 1) 'a' :: parseFields (toL "A,B,S1,3") 9 = _
    rw [show parseFields (toL "A,B,S1,3") 9 = [toL "A", toL "B", toL "S1", toL "3"] from by decide]

/-- C5 amended: the streaming pipeline applies no field-length ceiling at
all: a row whose `trip_id` field is `n` bytes long — for every `n`,
including every value above 63 — is accepted, and the full untruncated
field content is encoded into the record. -/
theorem C5_no_ceiling_no_truncation (n : Nat) :
    process_line (List.replicate n 'a' ++ toL ",A,B,S1,3") =
      some (recordItems (List.replicate n 'a') (toL "A") (toL "B") (toL "S1") 3) := by
  unfold process_line
  rw [parse_csv_line_replicate n]
  rfl

/-- C6 counterexample: a row whose `stop_sequence` field is empty — which
does not parse as a base-10 integer — is NOT rejected: `strtol` performs
no conversion, leaves `endptr` at the terminating NUL, and the row is
encoded with `stop_sequence` coerced to 0. -/
theorem C6_empty_sequence_coerced_to_zero :
    process_line (toL "T1,A,B,S1,\n") =
      some (recordItems (toL "T1") (toL "A") (toL "B") (toL "S1") 0) := by
  decide

/-- C6 amended: a row whose `stop_sequence` field fails the `strtol`
validation — characters left after the parsed digits, a negative value,
or a value above `INT_MAX` — is rejected and contributes no record.
(The one exception, shown by the counterexample, is an empty field,
which `strtol` turns into 0 with `endptr` at the NUL.) -/
theorem C6_invalid_sequence_rejected (line : List Char)
    (h : (strtol10 ((parse_csv_line line).getD 4 [])).2 ≠ [] ∨
        (strtol10 ((parse_csv_line line).getD 4 [])).1 < 0 ∨
        (strtol10 ((parse_csv_line line).getD 4 [])).1 > INT_MAX) :
    process_line line = none := by
  unfold process_line
  by_cases h5 : (parse_csv_line line).length < 5
  · rw [if_pos h5]
  · rw [if_neg h5, if_pos h]

/-- Witness for `C6_invalid_sequence_rejected` at the row `T1,A,B,S1,-1`
(negative `stop_sequence`). -/
theorem C6_invalid_sequence_rejected_witness :
    process_line (toL "T1,A,B,S1,-1") = none :=
  C6_invalid_sequence_rejected (toL "T1,A,B,S1,-1") (by decide)

/-- C7 counterexample: a data row containing a quoted field that is
opened but never closed (`T1,A,B,S1,3,"oops`) is NOT reported as
malformed: the parser silently consumes the remainder into that field
and `process_line` produces a record. -/
theorem C7_unterminated_quote_produces_record :
    process_line (toL "T1,A,B,S1,3,\"oops") =
      some (recordItems (toL "T1") (toL "A") (toL "B") (toL "S1") 3) := by
  decide

/-- C7 amended: an unterminated quoted field is never detected as
malformed; the parser silently consumes the whole remainder of the line
into that field: a line that is one unterminated quoted field parses as
exactly one field holding the remainder.  (Any rejection then comes only
from the downstream too-few-fields or `stop_sequence` checks, as the
counterexample shows by producing a record.) -/
theorem C7_unterminated_quote_consumes_rest (t : List Char) (h : '"' ∉ t) :
    parse_csv_line ('"' :: t) = [t] := by
  show parseFields ('"' :: t) (9 + 1) = [t]
  rw [parseFields]
  have hws : skipWs ('"' :: t) = '"' :: t := by
    rw [skipWs]
    exact if_neg (by decide)
  rw [hws]
  have hpof : parseOneField ('"' :: t) = (t, []) := by
    simp only [parseOneField]
    rw [if_pos trivial, scanQuoted_no_quote t h]
  rw [hpof]
  rfl

/-- Witness for `C7_unterminated_quote_consumes_rest` on the line
`"abc` (opening quote never closed). -/
theorem C7_unterminated_quote_consumes_rest_witness :
    parse_csv_line ('"' :: toL "abc") = [toL "abc"] :=
  C7_unterminated_quote_consumes_rest (toL "abc") (by decide)

/-- C8 counterexample: a doubled-quote escape does NOT decode to one
literal quote: in row `"a""b",A,B,S1,3` the `trip_id` stored in the
output record is `a""b` (both quote characters kept verbatim), which
differs from the RFC-4180 decoding `a"b` the claim requires. -/
theorem C8_doubled_quote_kept_verbatim :
    process_line (toL "\"a\"\"b\",A,B,S1,3") =
      some (recordItems (toL "a\"\"b") (toL "A") (toL "B") (toL "S1") 3) ∧
    toL "a\"\"b" ≠ toL "a\"b" := by
  constructor
  · decide
  · decide

/-- C8 amended: an embedded comma in a quoted field is preserved and the
outer quotes are stripped (the spec scenario `"T,1",S1,08:00:00,08:01:00,3`
stores `trip_id = T,1`), but a doubled-quote pair inside a quoted field
is kept verbatim as two quote characters, not collapsed to one. -/
theorem C8_embedded_comma_preserved :
    process_line (toL "\"T,1\",S1,08:00:00,08:01:00,3") =
      some (recordItems (toL "T,1") (toL "S1") (toL "08:00:00") (toL "08:01:00") 3) ∧
    parse_csv_line (toL "\"a\"\"b\",x") = [toL "a\"\"b", toL "x"] := by
  constructor
  · decide
  · decide

/-- One unfolding step of the `fgets` loop. -/
theorem fgetsSplitFuel_cons (m : Nat) (c : Char) (rest : List Char) :
    fgetsSplitFuel (m + 1) (c :: rest) =
      (fgetsChunk (c :: rest) 1023).1 ::
        fgetsSplitFuel m (fgetsChunk (c :: rest) 1023).2 := rfl

/-- C10: the pipeline treats each successive 1023-byte `fgets` chunk of
an over-long data line as a separate row.  (i) For every nonempty input,
the declared array length and the `processed` counter are the chunk
count minus one (the header chunk) — every chunk, including each piece
of a split line, is counted in pass 1 and becomes part of the declared
length.  (ii) The streaming body is exactly the concatenation of
`process_line` applied to each chunk independently.  (iii) A line whose
first 1023 characters contain no newline is split by `fgets`: the first
1023 characters form one chunk and scanning continues on the remainder
as if it started a fresh row. -/
theorem C10_long_lines_chunked :
    (∀ (c : Char) (input : List Char),
        (process_stop_times (c :: input)).output.take 3 =
          envelope ((fgetsSplit (c :: input)).length - 1) ∧
        (process_stop_times (c :: input)).processed =
          (fgetsSplit (c :: input)).length - 1) ∧
    (∀ rows : List (List Char),
        (streamLoop rows).2.1 =
          (rows.map (fun r => (process_line r).getD [])).flatten) ∧
    (∀ pre post : List Char, '\n' ∉ pre → 1023 < pre.length →
        fgetsSplit (pre ++ post) =
          pre.take 1023 :: fgetsSplit (pre.drop 1023 ++ post)) := by
  refine ⟨?_, ?_, ?_⟩
  · intro c input
    have hne := fgetsSplit_ne_nil c input
    unfold process_stop_times
    rw [if_neg hne]
    constructor
    · show (envelope ((fgetsSplit (c :: input)).length - 1) ++
          (streamLoop ((fgetsSplit (c :: input)).drop 1)).2.1).take 3 =
        envelope ((fgetsSplit (c :: input)).length - 1)
      have h3 : (3 : Nat) = (envelope ((fgetsSplit (c :: input)).length - 1)).length := rfl
      rw [h3, List.take_left]
    · rfl
  · intro rows
    induction rows with
    | nil => rfl
    | cons r rs ih =>
      cases h : process_line r <;> simp [streamLoop, h, ih]
  · intro pre post hnl hlen
    obtain ⟨c, pre', rfl⟩ : ∃ c pre', pre = c :: pre' := by
      cases pre with
      | nil => simp at hlen
      | cons a b => exact ⟨a, b, rfl⟩
    have step : fgetsSplit ((c :: pre') ++ post) =
        (fgetsChunk ((c :: pre') ++ post) 1023).1 ::
          fgetsSplitFuel (pre' ++ post).length (fgetsChunk ((c :: pre') ++ post) 1023).2 := by
      show fgetsSplitFuel ((pre' ++ post).length + 1) (c :: (pre' ++ post)) = _
      exact fgetsSplitFuel_cons (pre' ++ post).length c (pre' ++ post)
    rw [step, fgetsChunk_no_newline 1023 (c :: pre') post hnl (le_of_lt hlen)]
    refine congrArg (List.cons ((c :: pre').take 1023)) ?_
    show fgetsSplitFuel (pre' ++ post).length ((c :: pre').drop 1023 ++ post) =
      fgetsSplitFuel ((c :: pre').drop 1023 ++ post).length ((c :: pre').drop 1023 ++ post)
    refine fgetsSplitFuel_congr _ _ _ ?_ (le_refl _)
    simp only [List.length_append, List.length_drop, List.length_cons]
    omega

/-- Witness for `C10_long_lines_chunked` on a 1500-character
newline-free line: `fgets` splits it after 1023 characters and the
remainder is scanned as a fresh row. -/
theorem C10_long_lines_chunked_witness :
    fgetsSplit (List.replicate 1500 'a' ++ toL "\n") =
      (List.replicate 1500 'a').take 1023 ::
        fgetsSplit ((List.replicate 1500 'a').drop 1023 ++ toL "\n") :=
  C10_long_lines_chunked.2.2 (List.replicate 1500 'a') (toL "\n")
    (fun hm => absurd (List.eq_of_mem_replicate hm) (by decide))
    (by rw [List.length_replicate]; omega)
